import Mathlib

/-!
Shallow embedding of the google-calendar-clone event logic.

Timestamps are modelled as natural numbers: milliseconds since the epoch
(JS Date values).  A calendar day is identified by its index `day : Nat`,
so its midnight (setHours(0,0,0,0) / startOfDay) is `day * 86400000` and
its end (setHours(23,59,59,999) / endOfDay) is `day * 86400000 + 86399999`.

A value obtained from `new Date(string)` is either a valid instant or the
Invalid Date (NaN); `JSDate` models this, and `jsDateLe` models the JS
`<=` comparison, which is false whenever either side is NaN.

The Mongo store is modelled as a `List Event` in insertion order; the
`.sort(\x7b startTime: 1 \x7d)` call is modelled as a stable insertion sort by
`startTime` (ties keep store order).
-/

namespace Calendar

/-- The Event document, after `src/server/models/Event.js`. -/
structure Event where
  id : Nat
  title : String
  description : String
  startTime : Nat
  endTime : Nat
  allDay : Bool
  color : String
  location : String
  recurring : String
  createdAt : Nat
  updatedAt : Nat
deriving Repr, DecidableEq

/-- Result of `new Date(s)`: a valid ms timestamp or Invalid Date (NaN). -/
inductive JSDate where
  | valid (ms : Nat)
  | nan
deriving Repr, DecidableEq

/-- JS `a <= b` on Date values: false when either side is NaN. -/
def jsDateLe : JSDate → JSDate → Bool
  | JSDate.valid a, JSDate.valid b => decide (a ≤ b)
  | _, _ => false

/-- `startOfDay` / `setHours(0,0,0,0)` of day number `day`, in ms. -/
def getDayStart (day : Nat) : Nat := day * 86400000

/-- `endOfDay` / `setHours(23,59,59,999)` of day number `day`, in ms. -/
def getDayEnd (day : Nat) : Nat := day * 86400000 + 86399999

/-- date-fns `getHours` on a ms timestamp. -/
def getHours (t : Nat) : Nat := t / 3600000 % 24

/-- date-fns `getMinutes` on a ms timestamp. -/
def getMinutes (t : Nat) : Nat := t / 60000 % 60

/-- The `$or` filter built by `router.get('/')` in
`src/server/routes/events.js` (lines 34-48): event starts within the
range, or ends within the range, or completely contains the range. -/
def overlapsRange (s e : Nat) (ev : Event) : Bool :=
  (decide (s ≤ ev.startTime) && decide (ev.startTime ≤ e)) ||
  (decide (s ≤ ev.endTime) && decide (ev.endTime ≤ e)) ||
  (decide (ev.startTime ≤ s) && decide (e ≤ ev.endTime))

/-- One step of the stable sort modelling `.sort(\x7b startTime: 1 \x7d)`:
insert `ev` before the first element whose `startTime` is `≥` its own. -/
def orderedInsert (ev : Event) : List Event → List Event
  | [] => [ev]
  | x :: xs =>
    if ev.startTime ≤ x.startTime then ev :: x :: xs
    else x :: orderedInsert ev xs

/-- Stable sort of the store by `startTime` (ascending). -/
def sortByStartTime : List Event → List Event
  | [] => []
  | x :: xs => orderedInsert x (sortByStartTime xs)

/-- Server list result: 200 with the events array, or a 400 error body. -/
inductive ListResult where
  | ok (events : List Event)
  | badRequest (msg : String)
deriving Repr, DecidableEq

/-- `router.get('/')` from `src/server/routes/events.js`.  `startDate` and
`endDate` are `none` when the query parameter is absent (or falsy) and
`some JSDate.nan` when it is present but unparseable.  Only when both are
present are they validated; otherwise the query is the unbounded fetch. -/
def getEvents (store : List Event) (startDate endDate : Option JSDate) : ListResult :=
  match startDate, endDate with
  | some JSDate.nan, some _ =>
    ListResult.badRequest "Invalid date format. Use ISO 8601 format."
  | some (JSDate.valid _), some JSDate.nan =>
    ListResult.badRequest "Invalid date format. Use ISO 8601 format."
  | some (JSDate.valid s), some (JSDate.valid e) =>
    if e < s then ListResult.badRequest "endDate must be after startDate"
    else ListResult.ok (sortByStartTime (List.filter (overlapsRange s e) store))
  | _, _ => ListResult.ok (sortByStartTime store)

/-- `getEventsForDay` from the client date utils: keep events that start
within the day, end within the day, or span the whole day (all bounds
inclusive). -/
def getEventsForDay (events : List Event) (day : Nat) : List Event :=
  events.filter fun ev =>
    (decide (getDayStart day ≤ ev.startTime) && decide (ev.startTime ≤ getDayEnd day)) ||
    (decide (getDayStart day ≤ ev.endTime) && decide (ev.endTime ≤ getDayEnd day)) ||
    (decide (ev.startTime ≤ getDayStart day) && decide (getDayEnd day ≤ ev.endTime))

/-- `getEventsForTimeSlot` from the client date utils: the slot runs from
`hour:00` to `(hour+1):00` of the day; the start test is upper-exclusive,
the end test is lower-exclusive, plus the fully-contains clause. -/
def getEventsForTimeSlot (events : List Event) (day hour : Nat) : List Event :=
  let slotStart := getDayStart day + hour * 3600000
  let slotEnd := getDayStart day + (hour + 1) * 3600000
  events.filter fun ev =>
    (decide (slotStart ≤ ev.startTime) && decide (ev.startTime < slotEnd)) ||
    (decide (slotStart < ev.endTime) && decide (ev.endTime ≤ slotEnd)) ||
    (decide (ev.startTime ≤ slotStart) && decide (slotEnd ≤ ev.endTime))

/-- The inclusive three-clause overlap predicate as the spec words it. -/
def inclusiveOverlap (s e : Nat) (ev : Event) : Prop :=
  (s ≤ ev.startTime ∧ ev.startTime ≤ e) ∨
  (s ≤ ev.endTime ∧ ev.endTime ≤ e) ∨
  (ev.startTime ≤ s ∧ e ≤ ev.endTime)

instance (s e : Nat) (ev : Event) : Decidable (inclusiveOverlap s e ev) := by
  unfold inclusiveOverlap; exact inferInstance

/-- The half-open overlap predicate as the spec words it: start in
`[slotStart, slotEnd)`, or end in `(slotStart, slotEnd]`, or the event
fully contains the slot. -/
def halfOpenOverlap (s e : Nat) (ev : Event) : Prop :=
  (s ≤ ev.startTime ∧ ev.startTime < e) ∨
  (s < ev.endTime ∧ ev.endTime ≤ e) ∨
  (ev.startTime ≤ s ∧ e ≤ ev.endTime)

instance (s e : Nat) (ev : Event) : Decidable (halfOpenOverlap s e ev) := by
  unfold halfOpenOverlap; exact inferInstance

/-- Result of a layout calculator: all-day events go to the all-day lane
(`top: 0, height: 'auto'`), timed events get pixel top and height.  The
pixel values are integers because the JS subtraction can be negative. -/
inductive EventPosition where
  | allDayLane
  | timed (top : Int) (height : Int)
deriving Repr, DecidableEq

/-- `getEventPosition` of the DayView component: reads the hour and minute
of the raw `startTime` and `endTime` (no clamping to the day), sets
`top = startHour*60 + startMinute` and
`height = max(endMinutes - startMinutes, 20)`. -/
def dayViewEventPosition (event : Event) : EventPosition :=
  if event.allDay then EventPosition.allDayLane
  else
    let startPositionPx : Int := getHours event.startTime * 60 + getMinutes event.startTime
    let endPositionPx : Int := getHours event.endTime * 60 + getMinutes event.endTime
    EventPosition.timed startPositionPx (max (endPositionPx - startPositionPx) 20)

/-- `getEventPosition` of the WeekView component: first replaces the event
bounds by the day bounds when they fall outside the day
(`eventStart < dayStart ? dayStart : eventStart`, and symmetrically for
the end), then computes the same pixel arithmetic as the day view. -/
def weekViewEventPosition (event : Event) (day : Nat) : EventPosition :=
  if event.allDay then EventPosition.allDayLane
  else
    let effectiveStart :=
      if event.startTime < getDayStart day then getDayStart day else event.startTime
    let effectiveEnd :=
      if getDayEnd day < event.endTime then getDayEnd day else event.endTime
    let startPositionPx : Int := getHours effectiveStart * 60 + getMinutes effectiveStart
    let endPositionPx : Int := getHours effectiveEnd * 60 + getMinutes effectiveEnd
    EventPosition.timed startPositionPx (max (endPositionPx - startPositionPx) 20)

/-- The layout calculator as the spec words it: clamp the interval to the
day bounds, then `topOffset = hour(effectiveStart)*60 + minute(effectiveStart)`
and `height = max(endMinutesOfDay - topOffset, 20)`. -/
def clampedPositionSpec (event : Event) (day : Nat) : EventPosition :=
  if event.allDay then EventPosition.allDayLane
  else
    let effectiveStart := max event.startTime (getDayStart day)
    let effectiveEnd := min event.endTime (getDayEnd day)
    let topOffset : Int := getHours effectiveStart * 60 + getMinutes effectiveStart
    let endMinutesOfDay : Int := getHours effectiveEnd * 60 + getMinutes effectiveEnd
    EventPosition.timed topOffset (max (endMinutesOfDay - topOffset) 20)

/-- JS truthiness of an optional string field: absent or empty is falsy. -/
def strFalsy : Option String → Bool
  | none => true
  | some s => s == ""

/-- JS `field || default` on an optional string. -/
def strOrDefault (o : Option String) (d : String) : String :=
  match o with
  | none => d
  | some s => if s == "" then d else s

/-- Mongoose schema validation plus the pre-save hook of
`src/server/models/Event.js`: required nonempty title of at most 200
chars, description at most 1000, location at most 200, `recurring` in its
enum, and `endTime > startTime`. Returns the error message on failure. -/
def mongooseValidate (ev : Event) : Option String :=
  if ev.title == "" then some "Path title is required"
  else if 200 < ev.title.length then some "title exceeds maximum length"
  else if 1000 < ev.description.length then some "description exceeds maximum length"
  else if 200 < ev.location.length then some "location exceeds maximum length"
  else if !(["none", "daily", "weekly", "monthly", "yearly"].contains ev.recurring) then
    some "recurring is not a valid enum value"
  else if ev.endTime ≤ ev.startTime then some "End time must be after start time"
  else none

/-- The request body of `POST /api/events`.  A field is `none` when absent;
for the date fields, absent-or-falsy is `none` (the route rejects those
before parsing) and `some JSDate.nan` is a present but unparseable string. -/
structure CreateRequest where
  title : Option String
  description : Option String
  startTime : Option JSDate
  endTime : Option JSDate
  allDay : Option Bool
  color : Option String
  location : Option String
  recurring : Option String
deriving Repr, DecidableEq

/-- Server create result: 201 with the saved document, or a 400 body. -/
inductive CreateResult where
  | created (ev : Event)
  | badRequest (msg : String)
deriving Repr, DecidableEq

/-- `router.post('/')` from `src/server/routes/events.js`, composed with
the model save.  `newId` is the store-assigned id and `now` the clock
value used for `createdAt` / `updatedAt`.  Returns the store after the
call together with the response. -/
def createEvent (store : List Event) (newId now : Nat) (req : CreateRequest) :
    List Event × CreateResult :=
  if strFalsy req.title || req.startTime == none || req.endTime == none then
    (store, CreateResult.badRequest "Title, startTime, and endTime are required")
  else
    match req.startTime, req.endTime with
    | some JSDate.nan, _ => (store, CreateResult.badRequest "Invalid startTime format")
    | some (JSDate.valid _), some JSDate.nan =>
      (store, CreateResult.badRequest "Invalid endTime format")
    | some (JSDate.valid s), some (JSDate.valid e) =>
      if e ≤ s then (store, CreateResult.badRequest "End time must be after start time")
      else
        let t := (req.title.getD "").trim
        if t == "" then (store, CreateResult.badRequest "Title cannot be empty")
        else if 200 < (req.title.getD "").length then
          (store, CreateResult.badRequest "Title cannot exceed 200 characters")
        else
          let ev : Event :=
            { id := newId
              title := t
              description := (req.description.getD "")
              startTime := s
              endTime := e
              allDay := req.allDay.getD false
              color := strOrDefault req.color "#4285f4"
              location := (req.location.getD "")
              recurring := strOrDefault req.recurring "none"
              createdAt := now
              updatedAt := now }
          match mongooseValidate ev with
          | some msg => (store, CreateResult.badRequest msg)
          | none => (store ++ [ev], CreateResult.created ev)
    | none, _ => (store, CreateResult.badRequest "Title, startTime, and endTime are required")
    | _, none => (store, CreateResult.badRequest "Title, startTime, and endTime are required")

/-- `Event.findById`: the unique document with the given id. -/
def findById (store : List Event) (id : Nat) : Option Event :=
  store.find? fun ev => ev.id == id

/-- The request body of `PUT /api/events/:id`.  The route tests each field
with `!== undefined`, so `none` is an absent field and `some JSDate.nan`
a present but unparseable date string. -/
structure UpdateRequest where
  title : Option String
  description : Option String
  startTime : Option JSDate
  endTime : Option JSDate
  allDay : Option Bool
  color : Option String
  location : Option String
  recurring : Option String
deriving Repr, DecidableEq

/-- Server update result: 200 with the updated document, a 400 body, or a
404 when the id matches no document. -/
inductive UpdateResult where
  | updated (ev : Event)
  | badRequest (msg : String)
  | notFound
deriving Repr, DecidableEq

/-- Validation run inside `findByIdAndUpdate` with `runValidators`: the
pre-findOneAndUpdate hook rechecks `endTime <= startTime` when both date
fields are in the update payload, and the schema validators run on every
updated path (the trim setter has already been applied to the title). -/
def updateValidate (updated : Event) (req : UpdateRequest) : Option String :=
  if req.startTime.isSome && req.endTime.isSome && decide (updated.endTime ≤ updated.startTime) then
    some "End time must be after start time"
  else if req.title.isSome && updated.title == "" then some "Path title is required"
  else if req.title.isSome && decide (200 < updated.title.length) then
    some "title exceeds maximum length"
  else if req.description.isSome && decide (1000 < updated.description.length) then
    some "description exceeds maximum length"
  else if req.location.isSome && decide (200 < updated.location.length) then
    some "location exceeds maximum length"
  else if req.recurring.isSome &&
      !(["none", "daily", "weekly", "monthly", "yearly"].contains updated.recurring) then
    some "recurring is not a valid enum value"
  else none

/-- The tail of the update route: run the update validators on the new
document; on failure answer 400 and leave the store alone, on success
replace the document with the given id and answer 200 with it. -/
def finishUpdate (store : List Event) (id : Nat) (updated : Event) (req : UpdateRequest) :
    List Event × UpdateResult :=
  match updateValidate updated req with
  | some msg => (store, UpdateResult.badRequest msg)
  | none =>
    (store.map (fun ev => if ev.id == id then updated else ev),
     UpdateResult.updated updated)

/-- `router.put('/:id')` from `src/server/routes/events.js`: 404 when the
id matches nothing; otherwise the effective start and end are the supplied
values with the existing stored values substituted for absent fields, the
route rejects `newEndTime <= newStartTime` (a JS Date comparison, false on
NaN), then rejects NaN inputs, then applies the update with validators.
Returns the store after the call together with the response. -/
def updateEvent (store : List Event) (id now : Nat) (req : UpdateRequest) :
    List Event × UpdateResult :=
  match findById store id with
  | none => (store, UpdateResult.notFound)
  | some existing =>
    let newStartTime : JSDate :=
      match req.startTime with
      | some d => d
      | none => JSDate.valid existing.startTime
    let newEndTime : JSDate :=
      match req.endTime with
      | some d => d
      | none => JSDate.valid existing.endTime
    if jsDateLe newEndTime newStartTime then
      (store, UpdateResult.badRequest "End time must be after start time")
    else if newStartTime == JSDate.nan then
      (store, UpdateResult.badRequest "Invalid startTime format")
    else if newEndTime == JSDate.nan then
      (store, UpdateResult.badRequest "Invalid endTime format")
    else
      let newStart : Nat :=
        match newStartTime with
        | JSDate.valid ms => ms
        | JSDate.nan => existing.startTime
      let newEnd : Nat :=
        match newEndTime with
        | JSDate.valid ms => ms
        | JSDate.nan => existing.endTime
      let updated : Event :=
        { id := existing.id
          title := (req.title.map String.trim).getD existing.title
          description := req.description.getD existing.description
          startTime := newStart
          endTime := newEnd
          allDay := req.allDay.getD existing.allDay
          color := req.color.getD existing.color
          location := req.location.getD existing.location
          recurring := req.recurring.getD existing.recurring
          createdAt := existing.createdAt
          updatedAt := now }
      finishUpdate store id updated req

/-- Server delete result: 200 with the deleted document, or a 404. -/
inductive DeleteResult where
  | deleted (ev : Event)
  | notFound
deriving Repr, DecidableEq

/-- `router.delete('/:id')` from `src/server/routes/events.js`:
`findByIdAndDelete` removes the document with the given id and the
response carries the removed document; 404 when the id matches nothing. -/
def deleteEvent (store : List Event) (id : Nat) : List Event × DeleteResult :=
  match findById store id with
  | none => (store, DeleteResult.notFound)
  | some ev => (store.eraseP (fun x => x.id == id), DeleteResult.deleted ev)

/-- A concrete timed event with default ancillary fields, for evaluating
the operations on closed inputs. -/
def sampleEvent (i s e : Nat) : Event :=
  { id := i
    title := "Event"
    description := ""
    startTime := s
    endTime := e
    allDay := false
    color := "#4285f4"
    location := ""
    recurring := "none"
    createdAt := 0
    updatedAt := 0 }

/-- A create request whose end equals its start. -/
def invertedCreateRequest : CreateRequest :=
  { title := some "Meeting"
    description := none
    startTime := some (JSDate.valid 1000)
    endTime := some (JSDate.valid 1000)
    allDay := none
    color := none
    location := none
    recurring := none }

/-- An update request that supplies only a new start time. -/
def startOnlyUpdateRequest (s : Nat) : UpdateRequest :=
  { title := none
    description := none
    startTime := some (JSDate.valid s)
    endTime := none
    allDay := none
    color := none
    location := none
    recurring := none }

/-! ### Lemmas about the stable sort -/

theorem perm_orderedInsert (ev : Event) (l : List Event) :
    List.Perm (orderedInsert ev l) (ev :: l) := by
  induction l with
  | nil => exact List.Perm.refl _
  | cons x xs ih =>
    by_cases h : ev.startTime ≤ x.startTime
    · simp only [orderedInsert, if_pos h]
      exact List.Perm.refl _
    · simp only [orderedInsert, if_neg h]
      exact List.Perm.trans (ih.cons x) (List.Perm.swap ev x xs)

theorem mem_orderedInsert (y ev : Event) (l : List Event) :
    y ∈ orderedInsert ev l ↔ y = ev ∨ y ∈ l := by
  rw [(perm_orderedInsert ev l).mem_iff, List.mem_cons]

theorem perm_sortByStartTime (l : List Event) : List.Perm (sortByStartTime l) l := by
  induction l with
  | nil => exact List.Perm.refl _
  | cons x xs ih =>
    exact List.Perm.trans (perm_orderedInsert x (sortByStartTime xs)) (ih.cons x)

theorem mem_sortByStartTime (y : Event) (l : List Event) :
    y ∈ sortByStartTime l ↔ y ∈ l :=
  (perm_sortByStartTime l).mem_iff

theorem pairwise_orderedInsert (ev : Event) (l : List Event)
    (h : l.Pairwise fun a b => a.startTime ≤ b.startTime) :
    (orderedInsert ev l).Pairwise fun a b => a.startTime ≤ b.startTime := by
  induction l with
  | nil => simp [orderedInsert]
  | cons x xs ih =>
    rcases List.pairwise_cons.1 h with ⟨hx, hxs⟩
    by_cases hle : ev.startTime ≤ x.startTime
    · simp only [orderedInsert, if_pos hle]
      refine List.pairwise_cons.2 ⟨?_, h⟩
      intro b hb
      rcases List.mem_cons.1 hb with rfl | hb
      · exact hle
      · exact le_trans hle (hx b hb)
    · simp only [orderedInsert, if_neg hle]
      refine List.pairwise_cons.2 ⟨?_, ih hxs⟩
      intro b hb
      rcases (mem_orderedInsert b ev xs).1 hb with rfl | hb
      · exact le_of_not_le hle
      · exact hx b hb

theorem pairwise_sortByStartTime (l : List Event) :
    (sortByStartTime l).Pairwise fun a b => a.startTime ≤ b.startTime := by
  induction l with
  | nil => simp [sortByStartTime]
  | cons x xs ih => exact pairwise_orderedInsert x _ ih

theorem filter_orderedInsert (k : Nat) (ev : Event) (l : List Event) :
    (orderedInsert ev l).filter (fun x => x.startTime == k) =
      if ev.startTime = k then ev :: l.filter (fun x => x.startTime == k)
      else l.filter (fun x => x.startTime == k) := by
  induction l with
  | nil =>
    by_cases h : ev.startTime = k <;> simp [orderedInsert, List.filter_cons, h]
  | cons x xs ih =>
    by_cases hle : ev.startTime ≤ x.startTime
    · simp only [orderedInsert, if_pos hle]
      by_cases h : ev.startTime = k <;> simp [List.filter_cons, h]
    · have hlt : x.startTime < ev.startTime := lt_of_not_le hle
      simp only [orderedInsert, if_neg hle]
      rw [List.filter_cons]
      simp only [ih]
      by_cases h : ev.startTime = k
      · have hx : ¬ x.startTime = k := by omega
        simp [hx, h, List.filter_cons]
      · simp [h, List.filter_cons]

theorem filter_sortByStartTime (k : Nat) (l : List Event) :
    (sortByStartTime l).filter (fun x => x.startTime == k) =
      l.filter (fun x => x.startTime == k) := by
  induction l with
  | nil => simp [sortByStartTime]
  | cons x xs ih =>
    by_cases h : x.startTime = k <;>
      simp [sortByStartTime, filter_orderedInsert, h, List.filter_cons, ih]

/-! ### Claim theorems -/

/-- C1: for every event and every query range `[s,e]` accepted by the list
route, the event is in the result iff its start lies in `[s,e]`, or its
end lies in `[s,e]`, or it fully contains the range (all comparisons
inclusive); and the same three-clause inclusive predicate, taken at the
day's 00:00:00.000 and 23:59:59.999 bounds, governs the client-side
per-day filter. -/
theorem rangeFilter_inclusiveOverlap (store : List Event) (s e : Nat) (l : List Event)
    (h : getEvents store (some (JSDate.valid s)) (some (JSDate.valid e)) = ListResult.ok l) :
    (∀ ev, ev ∈ l ↔ ev ∈ store ∧ inclusiveOverlap s e ev) ∧
    (∀ (events : List Event) (day : Nat) (ev : Event),
      ev ∈ getEventsForDay events day ↔
        ev ∈ events ∧ inclusiveOverlap (getDayStart day) (getDayEnd day) ev) := by
  constructor
  · intro ev
    by_cases hlt : e < s
    · simp only [getEvents, if_pos hlt] at h
      exact absurd h (by simp)
    · simp only [getEvents, if_neg hlt] at h
      injection h with h'
      subst h'
      rw [mem_sortByStartTime, List.mem_filter]
      simp [overlapsRange, inclusiveOverlap, or_assoc]
  · intro events day ev
    simp [getEventsForDay, List.mem_filter, inclusiveOverlap, or_assoc]

theorem rangeFilter_inclusiveOverlap_witness :
    (∀ ev, ev ∈ sortByStartTime
        (List.filter (overlapsRange 0 86399999) [sampleEvent 1 82800000 90000000]) ↔
      ev ∈ [sampleEvent 1 82800000 90000000] ∧ inclusiveOverlap 0 86399999 ev) ∧
    (∀ (events : List Event) (day : Nat) (ev : Event),
      ev ∈ getEventsForDay events day ↔
        ev ∈ events ∧ inclusiveOverlap (getDayStart day) (getDayEnd day) ev) :=
  rangeFilter_inclusiveOverlap [sampleEvent 1 82800000 90000000] 0 86399999 _ rfl

/-- C4: the hour-slot filter keeps an event iff its start lies in
`[slotStart, slotEnd)` (upper bound exclusive), or its end lies in
`(slotStart, slotEnd]` (lower bound exclusive), or the event fully
contains the slot, where the slot runs from `hour:00` to `(hour+1):00`
of the day. -/
theorem timeSlot_halfOpenOverlap (events : List Event) (day hour : Nat) (ev : Event) :
    ev ∈ getEventsForTimeSlot events day hour ↔
      ev ∈ events ∧
        halfOpenOverlap (getDayStart day + hour * 3600000)
          (getDayStart day + (hour + 1) * 3600000) ev := by
  simp [getEventsForTimeSlot, List.mem_filter, halfOpenOverlap, or_assoc]

/-- C6: when both range bounds are supplied, the list route answers 400
when either bound is NaN, answers 400 when the range is inverted
(endDate earlier than startDate), and only otherwise builds and runs the
overlap filter. -/
theorem list_range_validation (store : List Event) (s e : Nat) (ed : JSDate) :
    (getEvents store (some JSDate.nan) (some ed) =
        ListResult.badRequest "Invalid date format. Use ISO 8601 format.") ∧
    (getEvents store (some (JSDate.valid s)) (some JSDate.nan) =
        ListResult.badRequest "Invalid date format. Use ISO 8601 format.") ∧
    (e < s →
      getEvents store (some (JSDate.valid s)) (some (JSDate.valid e)) =
        ListResult.badRequest "endDate must be after startDate") ∧
    (¬ e < s →
      getEvents store (some (JSDate.valid s)) (some (JSDate.valid e)) =
        ListResult.ok (sortByStartTime (List.filter (overlapsRange s e) store))) := by
  refine ⟨rfl, rfl, fun h => ?_, fun h => ?_⟩
  · simp only [getEvents, if_pos h]
  · simp only [getEvents, if_neg h]

theorem list_range_validation_witness :
    getEvents [] (some (JSDate.valid 5)) (some (JSDate.valid 3)) =
        ListResult.badRequest "endDate must be after startDate" ∧
    getEvents [] (some (JSDate.valid 0)) (some (JSDate.valid 1)) =
        ListResult.ok (sortByStartTime (List.filter (overlapsRange 0 1) [])) :=
  ⟨(list_range_validation [] 5 3 JSDate.nan).2.2.1 (by decide),
   (list_range_validation [] 0 1 JSDate.nan).2.2.2 (by decide)⟩

/-- C10 (implicit): when exactly one of `startDate`, `endDate` is supplied,
the bound is silently ignored: no validation runs (even a NaN bound is
accepted) and the route behaves exactly like the unbounded fetch,
returning every stored event. -/
theorem single_bound_ignored (store : List Event) (d : JSDate) :
    getEvents store (some d) none = ListResult.ok (sortByStartTime store) ∧
    getEvents store none (some d) = ListResult.ok (sortByStartTime store) ∧
    getEvents store none none = ListResult.ok (sortByStartTime store) ∧
    ∀ ev, ev ∈ sortByStartTime store ↔ ev ∈ store := by
  refine ⟨by cases d <;> rfl, by cases d <;> rfl, rfl, fun ev => mem_sortByStartTime ev store⟩

/-- C8: every successful list response is sorted ascending by `startTime`,
and events with equal `startTime` appear in their store (insertion)
order: the tied events form a sublist of the store. -/
theorem list_sorted_stable (store : List Event) (sd ed : Option JSDate) (l : List Event)
    (h : getEvents store sd ed = ListResult.ok l) :
    l.Pairwise (fun a b => a.startTime ≤ b.startTime) ∧
    ∀ k : Nat, List.Sublist (l.filter (fun ev => ev.startTime == k)) store := by
  have main : ∀ m : List Event, List.Sublist m store →
      (sortByStartTime m).Pairwise (fun a b => a.startTime ≤ b.startTime) ∧
      ∀ k : Nat,
        List.Sublist ((sortByStartTime m).filter (fun ev => ev.startTime == k)) store := by
    intro m hm
    refine ⟨pairwise_sortByStartTime m, fun k => ?_⟩
    rw [filter_sortByStartTime]
    exact (List.filter_sublist m).trans hm
  rcases sd with _ | sd
  · rcases ed with _ | ed
    · simp only [getEvents] at h
      injection h with h'
      subst h'
      exact main store (List.Sublist.refl store)
    · cases ed <;>
        (simp only [getEvents] at h; injection h with h'; subst h';
         exact main store (List.Sublist.refl store))
  · rcases ed with _ | ed
    · cases sd <;>
        (simp only [getEvents] at h; injection h with h'; subst h';
         exact main store (List.Sublist.refl store))
    · cases sd with
      | nan => simp only [getEvents] at h; exact absurd h (by simp)
      | valid s =>
        cases ed with
        | nan => simp only [getEvents] at h; exact absurd h (by simp)
        | valid e =>
          by_cases hlt : e < s
          · simp only [getEvents, if_pos hlt] at h
            exact absurd h (by simp)
          · simp only [getEvents, if_neg hlt] at h
            injection h with h'
            subst h'
            exact main _ (List.filter_sublist store)

theorem list_sorted_stable_witness :
    (sortByStartTime [sampleEvent 1 1000 2000, sampleEvent 2 1000 3000]).Pairwise
      (fun a b => a.startTime ≤ b.startTime) ∧
    ∀ k : Nat,
      List.Sublist
        ((sortByStartTime [sampleEvent 1 1000 2000, sampleEvent 2 1000 3000]).filter
          (fun ev => ev.startTime == k))
        [sampleEvent 1 1000 2000, sampleEvent 2 1000 3000] :=
  list_sorted_stable [sampleEvent 1 1000 2000, sampleEvent 2 1000 3000] none none _ rfl

/-- C2 counterexample: the event running from 23:00 of day 0 to 01:00 of
day 1 is rendered on the grid of day 1 (it passes the per-day filter),
but the day view positions it from its raw start clock time instead of
clamping the interval to day bounds: it computes top 1380 and height 20
where the clamped computation gives top 0 and height 60. -/
theorem dayView_unclamped_cex :
    sampleEvent 1 82800000 90000000 ∈
      getEventsForDay [sampleEvent 1 82800000 90000000] 1 ∧
    dayViewEventPosition (sampleEvent 1 82800000 90000000) ≠
      clampedPositionSpec (sampleEvent 1 82800000 90000000) 1 := by
  decide

/-- C2 (amended): only the week view layout calculator clamps the event
interval to the day's `[00:00:00.000, 23:59:59.999]` bounds before
computing topOffset and height; the day view computes them from the raw
event start and end clock times without clamping. -/
theorem weekView_clamps_to_day (event : Event) (day : Nat) :
    weekViewEventPosition event day = clampedPositionSpec event day := by
  have e1 : (if event.startTime < getDayStart day then getDayStart day else event.startTime)
      = max event.startTime (getDayStart day) := by
    rcases Nat.lt_or_ge event.startTime (getDayStart day) with h | h
    · rw [if_pos h, Nat.max_eq_right h.le]
    · rw [if_neg (Nat.not_lt.2 h), Nat.max_eq_left h]
  have e2 : (if getDayEnd day < event.endTime then getDayEnd day else event.endTime)
      = min event.endTime (getDayEnd day) := by
    rcases Nat.lt_or_ge (getDayEnd day) event.endTime with h | h
    · rw [if_pos h, Nat.min_eq_right h.le]
    · rw [if_neg (Nat.not_lt.2 h), Nat.min_eq_left h]
  by_cases hAll : event.allDay
  · simp [weekViewEventPosition, clampedPositionSpec, hAll]
  · simp only [weekViewEventPosition, clampedPositionSpec, if_neg hAll, e1, e2]

/-- C7: for a non-all-day event lying fully inside a day, both layout
calculators return `topOffset = hour(start)*60 + minute(start)` and
`height = max(endMinutesOfDay - startMinutesOfDay, 20)`. -/
theorem layout_within_day (event : Event) (day : Nat)
    (hAll : event.allDay = false)
    (hs : getDayStart day ≤ event.startTime)
    (he : event.endTime ≤ getDayEnd day) :
    dayViewEventPosition event =
      EventPosition.timed (getHours event.startTime * 60 + getMinutes event.startTime)
        (max ((getHours event.endTime * 60 + getMinutes event.endTime : Int) -
          (getHours event.startTime * 60 + getMinutes event.startTime : Int)) 20) ∧
    weekViewEventPosition event day =
      EventPosition.timed (getHours event.startTime * 60 + getMinutes event.startTime)
        (max ((getHours event.endTime * 60 + getMinutes event.endTime : Int) -
          (getHours event.startTime * 60 + getMinutes event.startTime : Int)) 20) := by
  constructor
  · simp [dayViewEventPosition, hAll]
  · simp [weekViewEventPosition, hAll, Nat.not_lt.2 hs, Nat.not_lt.2 he]

theorem layout_within_day_witness :
    dayViewEventPosition (sampleEvent 3 36000000 37800000) = EventPosition.timed 600 30 ∧
    weekViewEventPosition (sampleEvent 3 36000000 37800000) 0 = EventPosition.timed 600 30 := by
  have h := layout_within_day (sampleEvent 3 36000000 37800000) 0 rfl (by decide) (by decide)
  exact ⟨h.1.trans (by decide), h.2.trans (by decide)⟩

/-- C5: a create whose parsed end is not strictly after its parsed start
is answered with a 400 and persists nothing: the store after the call is
the store before it. -/
theorem create_rejects_inverted_interval (store : List Event) (newId now : Nat)
    (req : CreateRequest) (s e : Nat)
    (hstart : req.startTime = some (JSDate.valid s))
    (hend : req.endTime = some (JSDate.valid e))
    (hinv : e ≤ s) :
    (createEvent store newId now req).1 = store ∧
    ∃ msg, (createEvent store newId now req).2 = CreateResult.badRequest msg := by
  by_cases ht : strFalsy req.title
  · simp [createEvent, ht, hstart, hend]
  · simp [createEvent, ht, hstart, hend, hinv]

theorem create_rejects_inverted_interval_witness :
    (createEvent [] 1 50 invertedCreateRequest).1 = [] ∧
    ∃ msg, (createEvent [] 1 50 invertedCreateRequest).2 = CreateResult.badRequest msg :=
  create_rejects_inverted_interval [] 1 50 invertedCreateRequest 1000 1000 rfl rfl
    (by decide)

/-- When the update payload omits at least one of the two date fields,
none of the update validators can produce the cross-field date message. -/
theorem updateValidate_no_date_msg (u : Event) (req : UpdateRequest) (msg : String)
    (hone : req.startTime = none ∨ req.endTime = none)
    (h : updateValidate u req = some msg) :
    msg ≠ "End time must be after start time" := by
  rcases hone with hst | hend
  · simp only [updateValidate, hst, Option.isSome_none, Bool.and_false, Bool.false_and,
      Bool.false_eq_true, if_false] at h
    split at h
    · injection h with h'; subst h'; decide
    split at h
    · injection h with h'; subst h'; decide
    split at h
    · injection h with h'; subst h'; decide
    split at h
    · injection h with h'; subst h'; decide
    split at h
    · injection h with h'; subst h'; decide
    · exact absurd h (by simp)
  · simp only [updateValidate, hend, Option.isSome_none, Bool.and_false, Bool.false_and,
      Bool.false_eq_true, if_false] at h
    split at h
    · injection h with h'; subst h'; decide
    split at h
    · injection h with h'; subst h'; decide
    split at h
    · injection h with h'; subst h'; decide
    split at h
    · injection h with h'; subst h'; decide
    split at h
    · injection h with h'; subst h'; decide
    · exact absurd h (by simp)

/-- The post-validation tail of the update route never produces the
cross-field date message when the payload omits one of the date fields. -/
theorem finishUpdate_no_date_msg (store : List Event) (id : Nat) (u : Event)
    (req : UpdateRequest) (hone : req.startTime = none ∨ req.endTime = none) :
    (finishUpdate store id u req).2 ≠
      UpdateResult.badRequest "End time must be after start time" := by
  cases hv : updateValidate u req with
  | none => simp [finishUpdate, hv]
  | some msg =>
    simp only [finishUpdate, hv]
    intro hc
    injection hc with hc'
    exact updateValidate_no_date_msg u req msg hone hv hc'

/-- C3: a partial update supplying only one date field is validated
against the other field's stored value: it is rejected with a 400 and an
unchanged store exactly when the effective end is not strictly after the
effective start, where the missing field is read from the stored record. -/
theorem update_effectivePair_validated (store : List Event) (id now : Nat) (existing : Event)
    (hfind : findById store id = some existing) :
    (∀ (req : UpdateRequest) (s : Nat),
      req.startTime = some (JSDate.valid s) → req.endTime = none →
      existing.endTime ≤ s →
      updateEvent store id now req =
        (store, UpdateResult.badRequest "End time must be after start time")) ∧
    (∀ (req : UpdateRequest) (e : Nat),
      req.endTime = some (JSDate.valid e) → req.startTime = none →
      e ≤ existing.startTime →
      updateEvent store id now req =
        (store, UpdateResult.badRequest "End time must be after start time")) ∧
    (∀ (req : UpdateRequest) (s : Nat),
      req.startTime = some (JSDate.valid s) → req.endTime = none →
      s < existing.endTime →
      (updateEvent store id now req).2 ≠
        UpdateResult.badRequest "End time must be after start time") ∧
    (∀ (req : UpdateRequest) (e : Nat),
      req.endTime = some (JSDate.valid e) → req.startTime = none →
      existing.startTime < e →
      (updateEvent store id now req).2 ≠
        UpdateResult.badRequest "End time must be after start time") := by
  refine ⟨?_, ?_, ?_, ?_⟩
  · intro req s hst hend hle
    simp [updateEvent, hfind, hst, hend, jsDateLe, hle]
  · intro req e hend hst hle
    simp [updateEvent, hfind, hst, hend, jsDateLe, hle]
  · intro req s hst hend hlt
    have hD : ¬ existing.endTime ≤ s := Nat.not_le.2 hlt
    simp [updateEvent, hfind, hst, hend, jsDateLe, hD]
    exact finishUpdate_no_date_msg store id _ req (Or.inr hend)
  · intro req e hend hst hlt
    have hD : ¬ e ≤ existing.startTime := Nat.not_le.2 hlt
    simp [updateEvent, hfind, hst, hend, jsDateLe, hD]
    exact finishUpdate_no_date_msg store id _ req (Or.inl hst)

theorem update_effectivePair_validated_witness :
    updateEvent [sampleEvent 7 3600000 7200000] 7 99 (startOnlyUpdateRequest 10000000) =
      ([sampleEvent 7 3600000 7200000],
        UpdateResult.badRequest "End time must be after start time") ∧
    (updateEvent [sampleEvent 7 3600000 7200000] 7 99 (startOnlyUpdateRequest 1000)).2 ≠
      UpdateResult.badRequest "End time must be after start time" := by
  have h := update_effectivePair_validated [sampleEvent 7 3600000 7200000] 7 99
      (sampleEvent 7 3600000 7200000) rfl
  exact ⟨h.1 (startOnlyUpdateRequest 10000000) 10000000 rfl rfl (by decide),
    h.2.2.1 (startOnlyUpdateRequest 1000) 1000 rfl rfl (by decide)⟩

/-- In a store whose ids are pairwise distinct, erasing by id removes
exactly the documents bearing that id. -/
theorem mem_eraseP_of_unique (store : List Event) (id : Nat)
    (h : store.Pairwise fun a b => a.id ≠ b.id) (x : Event) :
    x ∈ store.eraseP (fun e => e.id == id) ↔ x ∈ store ∧ x.id ≠ id := by
  induction store with
  | nil => simp
  | cons a rest ih =>
    rcases List.pairwise_cons.1 h with ⟨ha, hrest⟩
    by_cases hc : a.id = id
    · rw [List.eraseP_cons_of_pos (by simp [hc])]
      constructor
      · intro hx
        refine ⟨List.mem_cons_of_mem a hx, fun hxid => ?_⟩
        exact (ha x hx) (by rw [hc, hxid])
      · rintro ⟨hx, hxid⟩
        rcases List.mem_cons.1 hx with rfl | hx
        · exact absurd hc hxid
        · exact hx
    · rw [List.eraseP_cons_of_neg (by simp [hc])]
      rw [List.mem_cons, ih hrest, List.mem_cons]
      constructor
      · rintro (rfl | ⟨hx, hxid⟩)
        · exact ⟨Or.inl rfl, hc⟩
        · exact ⟨Or.inr hx, hxid⟩
      · rintro ⟨rfl | hx, hxid⟩
        · exact Or.inl rfl
        · exact Or.inr ⟨hx, hxid⟩

/-- C9: delete-by-id answers 404 with an unchanged store when no document
has the id; otherwise the response carries the deleted document's prior
state and, when store ids are pairwise distinct, the resulting store
holds exactly the documents whose id differs. -/
theorem delete_by_id_spec (store : List Event) (id : Nat) :
    ((∀ ev ∈ store, ev.id ≠ id) → deleteEvent store id = (store, DeleteResult.notFound)) ∧
    (∀ ev, findById store id = some ev →
      (deleteEvent store id).2 = DeleteResult.deleted ev ∧ ev ∈ store ∧ ev.id = id ∧
      (store.Pairwise (fun a b => a.id ≠ b.id) →
        ∀ x, x ∈ (deleteEvent store id).1 ↔ x ∈ store ∧ x.id ≠ id)) := by
  constructor
  · intro h
    have hfind : findById store id = none := by
      rw [findById, List.find?_eq_none]
      intro x hx
      simp [h x hx]
    simp [deleteEvent, hfind]
  · intro ev hfind
    have hmem : ev ∈ store := List.mem_of_find?_eq_some hfind
    have hid : ev.id = id := by
      have := List.find?_some hfind
      simpa using this
    refine ⟨by simp [deleteEvent, hfind], hmem, hid, ?_⟩
    intro huniq x
    simp only [deleteEvent, hfind]
    exact mem_eraseP_of_unique store id huniq x

theorem delete_by_id_spec_witness :
    deleteEvent [sampleEvent 1 0 1000] 2 = ([sampleEvent 1 0 1000], DeleteResult.notFound) ∧
    (deleteEvent [sampleEvent 1 0 1000] 1).2 = DeleteResult.deleted (sampleEvent 1 0 1000) := by
  refine ⟨(delete_by_id_spec [sampleEvent 1 0 1000] 2).1 ?_,
    ((delete_by_id_spec [sampleEvent 1 0 1000] 1).2 (sampleEvent 1 0 1000) rfl).1⟩
  intro ev hev
  simp only [List.mem_singleton] at hev
  subst hev
  decide

end Calendar
